import Mathlib

set_option maxRecDepth 1000000

/-!
Verification development for the iMasterPDF Flask application
(`src/app.py`, with near-duplicate handlers in `src/app/app.py`).

Modelling conventions (shallow embedding):
* Python `str` values are modelled as `List Char` (`PyStr`), the sequence of
  code points.  `pystr` injects Lean string literals.
* A multipart upload is an `Upload γ`: its original filename, its byte size,
  and its parsed content (`γ` is `List α` for a PDF seen as a page list,
  `Pdf α` when the encryption state matters, `List Int` when only the pages'
  `/Rotate` values matter).
* A request handler becomes a function into `Except (Nat × PyStr) β`:
  `.error (status, body)` is a non-200 response (JSON error or aborted
  `Response`), `.ok` is the HTTP 200 `send_file` attachment.
* External library calls (PyPDF2 readers/writers, werkzeug
  `secure_filename`, hashlib `md5`) are modelled by Lean functions whose doc
  comments state what they stand for; `md5hex` is a full executable
  implementation of the MD5 digest as computed by `hashlib.md5(...).hexdigest()`.
-/

namespace IMasterPDF

/-- Python strings are modelled as their list of characters. -/
abbrev PyStr := List Char

/-- Inject a Lean string literal as a modelled Python string. -/
def pystr (s : String) : PyStr := s.data

/-- Python `str.strip()` whitespace test (ASCII core of Python's notion). -/
def pyIsSpace (c : Char) : Bool :=
  c = ' ' || c = '\t' || c = '\n' || c = '\r' || c = '\x0b' || c = '\x0c'

/-- Python `s.strip()` : drop whitespace from both ends. -/
def pyStrip (s : PyStr) : PyStr :=
  ((s.dropWhile pyIsSpace).reverse.dropWhile pyIsSpace).reverse

/-- Python `s.split(sep)` for a one-character separator: split at every
occurrence, keeping empty pieces (`"".split(",") == [""]`). -/
def pySplit (sep : Char) : PyStr → List PyStr
  | [] => [[]]
  | c :: rest =>
    let r := pySplit sep rest
    if c = sep then [] :: r
    else
      match r with
      | [] => [[c]]
      | h :: t => (c :: h) :: t

/-- Python `s.split(sep, 1)` for a one-character separator: the part before
the first occurrence, and (when the separator occurs) the rest. -/
def pySplitOnce (sep : Char) : PyStr → PyStr × Option PyStr
  | [] => ([], none)
  | c :: rest =>
    if c = sep then ([], some rest)
    else
      let p := pySplitOnce sep rest
      (c :: p.1, p.2)

/-- Numeric value of a digit string (most significant digit first). -/
def digitsVal (ds : PyStr) : Nat :=
  ds.foldl (fun acc c => acc * 10 + (c.toNat - 48)) 0

/-- All characters are ASCII decimal digits. -/
def allDigits (ds : PyStr) : Bool := ds.all Char.isDigit

/-- Model of Python `int(s)` on a string: surrounding whitespace is ignored,
an optional single sign is allowed, and the remainder must be one or more
decimal digits; any other input raises `ValueError`, modelled as `none`.
(The ASCII core: Python additionally accepts unicode digits and `_`
separators, which none of the verified claims exercise.) -/
def pyInt? (s : PyStr) : Option Int :=
  match pyStrip s with
  | [] => none
  | c :: rest =>
    if c = '+' then
      if rest ≠ [] ∧ allDigits rest then some (digitsVal rest) else none
    else if c = '-' then
      if rest ≠ [] ∧ allDigits rest then some (-(digitsVal rest : Int)) else none
    else if allDigits (c :: rest) then some (digitsVal (c :: rest)) else none

-- -----------------------------------------------------------------------------
-- Upload model and validation helpers (src/app.py lines 426-462)
-- -----------------------------------------------------------------------------

/-- `MAX_CONTENT_LENGTH = 100 * 1024 * 1024` (src/app.py line 42). -/
def MAX_CONTENT_LENGTH : Nat := 100 * 1024 * 1024

/-- One file of a multipart upload: its original filename, its size in
bytes, and its content as parsed by the PDF library. -/
structure Upload (γ : Type) where
  filename : PyStr
  size : Nat
  content : γ
  deriving DecidableEq

/-- Model of werkzeug's `secure_filename` (external library, ASCII core):
characters outside `[A-Za-z0-9_.-]` are removed and leading/trailing `.`
and `_` are stripped. -/
def secure_filename (s : PyStr) : PyStr :=
  let keep := s.filter (fun c => c.isAlphanum || c = '.' || c = '-' || c = '_')
  let sc : Char → Bool := fun c => c = '.' || c = '_'
  ((keep.dropWhile sc).reverse.dropWhile sc).reverse

/-- `os.path.splitext(s)[1]` for a plain filename: the suffix from the last
dot, unless every character before that dot is itself a dot. -/
def splitextExt (s : PyStr) : PyStr :=
  let rev := s.reverse
  let extRev := rev.takeWhile (fun c => c ≠ '.')
  if extRev.length = rev.length then []
  else if ((rev.drop (extRev.length + 1)).reverse).all (fun c => c = '.') then []
  else '.' :: extRev.reverse

/-- `ext_of` (src/app.py line 427): lowercased extension of a filename. -/
def ext_of (filename : PyStr) : PyStr :=
  splitextExt (filename.map Char.toLower)

/-- `validate_file` (src/app.py lines 430-437): reject uploads smaller than
1024 bytes or larger than `MAX_CONTENT_LENGTH`, via `abort(Response(...))`. -/
def validate_file (size : Nat) : Except (Nat × PyStr) Unit :=
  if size < 1024 then .error (400, pystr "File too small (min 1 KB).")
  else if size > MAX_CONTENT_LENGTH then
    .error (400, pystr "File too large (max 100 MB).")
  else .ok ()

/-- `save_uploads` (src/app.py lines 450-462): validate each file in order
and store it under a generated unique name (which keeps the original
extension); the first failing file aborts the request.  The saved paths are
represented by the uploads themselves. -/
def save_uploads {γ : Type} : List (Upload γ) → Except (Nat × PyStr) (List (Upload γ))
  | [] => .ok []
  | f :: rest => do
    let _ ← validate_file f.size
    if secure_filename f.filename = [] then .error (400, pystr "Invalid filename.")
    else do
      let r ← save_uploads rest
      .ok (f :: r)

-- -----------------------------------------------------------------------------
-- /api/merge-pdf (src/app.py lines 1048-1102; src/app/app.py lines 454-498)
-- -----------------------------------------------------------------------------

/-- `api_merge_pdf`: require at least two files, save them, require the
`.pdf` extension on each, then `PdfMerger.append` each file in upload order
(appending concatenates the page lists) and send the merged PDF. -/
def api_merge_pdf {α : Type} (files : List (Upload (List α))) :
    Except (Nat × PyStr) (List α) :=
  if files.length < 2 then .error (400, pystr "Upload at least two PDFs.")
  else do
    let paths ← save_uploads files
    if paths.all (fun f => ext_of f.filename = pystr ".pdf") then
      .ok (paths.foldl (fun acc f => acc ++ f.content) [])
    else .error (400, pystr "Only PDF files are allowed.")

/-- An upload passing `save_uploads` validation. -/
def validUpload {γ : Type} (f : Upload γ) : Prop :=
  1024 ≤ f.size ∧ f.size ≤ MAX_CONTENT_LENGTH ∧ secure_filename f.filename ≠ []

instance {γ : Type} (f : Upload γ) : Decidable (validUpload f) := by
  unfold validUpload; infer_instance

theorem validate_file_ok {γ : Type} (f : Upload γ) (h : validUpload f) :
    validate_file f.size = .ok () := by
  obtain ⟨h1, h2, _⟩ := h
  simp [validate_file, Nat.not_lt.mpr h1, Nat.not_lt.mpr h2]

theorem save_uploads_ok {γ : Type} (files : List (Upload γ))
    (h : ∀ f ∈ files, validUpload f) : save_uploads files = .ok files := by
  induction files with
  | nil => rfl
  | cons f rest ih =>
    have hf := h f (List.mem_cons_self f rest)
    have hrest := ih (fun g hg => h g (List.mem_cons_of_mem f hg))
    simp [save_uploads, validate_file_ok f hf, hf.2.2, hrest, bind, Except.bind]

theorem foldl_append_eq_flatten {α : Type} (files : List (Upload (List α)))
    (acc : List α) :
    files.foldl (fun acc f => acc ++ f.content) acc
      = acc ++ (files.map Upload.content).flatten := by
  induction files generalizing acc with
  | nil => simp
  | cons f rest ih => simp [List.foldl_cons, ih]

/-- C1: a merge request with N ≥ 2 valid PDF uploads succeeds, and the
merged document is the concatenation of the input page lists in upload
order; in particular its page count is the sum of the input page counts. -/
theorem merge_pdf_pages {α : Type} (files : List (Upload (List α)))
    (hN : 2 ≤ files.length)
    (hval : ∀ f ∈ files, validUpload f)
    (hext : ∀ f ∈ files, ext_of f.filename = pystr ".pdf") :
    api_merge_pdf files = .ok ((files.map Upload.content).flatten) ∧
      ((files.map Upload.content).flatten).length
        = (files.map (fun f => f.content.length)).sum := by
  constructor
  · have hlen : ¬ files.length < 2 := Nat.not_lt.mpr hN
    have hallext : files.all (fun f => decide (ext_of f.filename = pystr ".pdf")) = true := by
      simp only [List.all_eq_true, decide_eq_true_eq]
      exact hext
    simp [api_merge_pdf, hlen, save_uploads_ok files hval, bind, Except.bind,
      hallext, foldl_append_eq_flatten]
  · rw [List.length_flatten, List.map_map]
    rfl

/-- Witness for C1: merging a 2-page PDF with a 1-page PDF yields the
3-page concatenation. -/
theorem merge_pdf_pages_witness :
    api_merge_pdf [⟨pystr "a.pdf", 2048, [10, 11]⟩, ⟨pystr "b.pdf", 4096, ([12] : List Nat)⟩]
        = .ok (([[10, 11], [12]].map id).flatten) ∧
      (([⟨pystr "a.pdf", 2048, [10, 11]⟩,
         (⟨pystr "b.pdf", 4096, [12]⟩ : Upload (List Nat))].map Upload.content).flatten).length
        = ([⟨pystr "a.pdf", 2048, ([10, 11] : List Nat)⟩,
            (⟨pystr "b.pdf", 4096, [12]⟩ : Upload (List Nat))].map
              (fun f => f.content.length)).sum := by
  have h := merge_pdf_pages
    [⟨pystr "a.pdf", 2048, [10, 11]⟩, (⟨pystr "b.pdf", 4096, [12]⟩ : Upload (List Nat))]
    (by decide) (by decide) (by decide)
  exact ⟨h.1, h.2⟩

-- -----------------------------------------------------------------------------
-- /api/split-pdf (src/app.py lines 1104-1210; src/app/app.py lines 500-588)
-- -----------------------------------------------------------------------------

/-- Error body `f"Page range out of bounds (1-{total_pages})."`. -/
def rangeOutMsg (total : Nat) : PyStr :=
  pystr "Page range out of bounds (1-" ++ Nat.toDigits 10 total ++ pystr ")."

/-- Error body `f"Page out of bounds (1-{total_pages})."`. -/
def pageOutMsg (total : Nat) : PyStr :=
  pystr "Page out of bounds (1-" ++ Nat.toDigits 10 total ++ pystr ")."

/-- The range-parsing loop of `api_split_pdf` (src/app.py lines 1131-1152):
each comma-separated part is either `start-end` (both `int(...)` and within
`1..total`, stored as the 0-based half-open pair `(min-1, max)`) or a single
page number; any parse failure or out-of-bounds page aborts with 400 (the
`except` clause catches both, so both produce the out-of-bounds message). -/
def splitPartsGo (total : Nat) : List PyStr → Except (Nat × PyStr) (List (Nat × Nat))
  | [] => .ok []
  | part :: rest =>
    if '-' ∈ part then
      match pySplitOnce '-' part with
      | (x, some y) =>
        match pyInt? x, pyInt? y with
        | some a, some b =>
          if 1 ≤ a ∧ a ≤ (total : Int) ∧ 1 ≤ b ∧ b ≤ (total : Int) then do
            let r ← splitPartsGo total rest
            pure (((min a b).toNat - 1, (max a b).toNat) :: r)
          else .error (400, rangeOutMsg total)
        | _, _ => .error (400, rangeOutMsg total)
      | (_, none) => .error (400, rangeOutMsg total)
    else
      match pyInt? part with
      | some p =>
        if 1 ≤ p ∧ p ≤ (total : Int) then do
          let r ← splitPartsGo total rest
          pure ((p.toNat - 1, p.toNat) :: r)
        else .error (400, pageOutMsg total)
      | none => .error (400, pageOutMsg total)

/-- `api_split_pdf`: one uploaded PDF and a non-empty `ranges` field; parse
the ranges against the page count, then cut `reader.pages[start:end]` for
each range and return the parts (zipped in the real handler; the part
contents and their range indices are what the claims are about). -/
def api_split_pdf {α : Type} (files : List (Upload (List α))) (ranges_raw : PyStr) :
    Except (Nat × PyStr) (List (List α)) :=
  match files with
  | [f] =>
    let rs := pyStrip ranges_raw
    if rs = [] then .error (400, pystr "Page ranges are required.")
    else do
      let _ ← save_uploads [f]
      if ext_of f.filename = pystr ".pdf" then do
        let total := f.content.length
        let parts := ((pySplit ',' rs).map pyStrip).filter (fun p => p ≠ [])
        let ranges ← splitPartsGo total parts
        pure (ranges.map (fun se => (f.content.drop se.1).take (se.2 - se.1)))
      else .error (400, pystr "Only PDF files are allowed.")
  | _ => .error (400, pystr "Upload exactly one PDF.")

theorem pySplit_eq_single (sep : Char) (s : PyStr) (h : ∀ c ∈ s, c ≠ sep) :
    pySplit sep s = [s] := by
  induction s with
  | nil => rfl
  | cons c rest ih =>
    have hc : c ≠ sep := h c (List.mem_cons_self c rest)
    have hr := ih (fun d hd => h d (List.mem_cons_of_mem c hd))
    simp [pySplit, hc, hr]

theorem pySplitOnce_append (sep : Char) (sa sb : PyStr) (h : ∀ c ∈ sa, c ≠ sep) :
    pySplitOnce sep (sa ++ sep :: sb) = (sa, some sb) := by
  induction sa with
  | nil => simp [pySplitOnce]
  | cons c rest ih =>
    have hc : c ≠ sep := h c (List.mem_cons_self c rest)
    have hr := ih (fun d hd => h d (List.mem_cons_of_mem c hd))
    simp [pySplitOnce, hc, hr]

/-- C2: splitting one valid PDF with `ranges` consisting of the single
explicit range `a-b`: if `1 ≤ a ≤ b ≤ total` the produced part is exactly
source pages `a..b` (1-indexed, inclusive), so it has `b-a+1` pages and its
`i`-th page is source page `a+i`; if either endpoint is outside `1..total`
the request fails with HTTP 400 and produces no output. -/
theorem split_pdf_range {α : Type} (f : Upload (List α)) (sa sb : PyStr) (a b : Nat)
    (hval : validUpload f) (hext : ext_of f.filename = pystr ".pdf")
    (hstrip : pyStrip (sa ++ '-' :: sb) = sa ++ '-' :: sb)
    (hnca : ∀ c ∈ sa, c ≠ ',') (hncb : ∀ c ∈ sb, c ≠ ',')
    (hnda : ∀ c ∈ sa, c ≠ '-')
    (hsa : pyInt? sa = some (a : Int)) (hsb : pyInt? sb = some (b : Int)) :
    (1 ≤ a → a ≤ b → b ≤ f.content.length →
      api_split_pdf [f] (sa ++ '-' :: sb)
          = .ok [(f.content.drop (a - 1)).take (b - a + 1)] ∧
        ((f.content.drop (a - 1)).take (b - a + 1)).length = b - a + 1 ∧
        ∀ i < b - a + 1,
          ((f.content.drop (a - 1)).take (b - a + 1))[i]? = f.content[a - 1 + i]?) ∧
    (¬(1 ≤ a ∧ a ≤ f.content.length ∧ 1 ≤ b ∧ b ≤ f.content.length) →
      api_split_pdf [f] (sa ++ '-' :: sb)
          = .error (400, rangeOutMsg f.content.length)) := by
  have hne : sa ++ '-' :: sb ≠ [] := by simp
  have hnc : ∀ c ∈ sa ++ '-' :: sb, c ≠ ',' := by
    intro c hc
    rcases List.mem_append.mp hc with h1 | h1
    · exact hnca c h1
    · rcases List.mem_cons.mp h1 with h2 | h2
      · subst h2; decide
      · exact hncb c h2
  have hsplit : pySplit ',' (sa ++ '-' :: sb) = [sa ++ '-' :: sb] :=
    pySplit_eq_single ',' _ hnc
  have hmem : '-' ∈ sa ++ '-' :: sb := List.mem_append_right sa (List.mem_cons_self _ _)
  have honce : pySplitOnce '-' (sa ++ '-' :: sb) = (sa, some sb) :=
    pySplitOnce_append '-' sa sb hnda
  have hparts :
      (((pySplit ',' (sa ++ '-' :: sb)).map pyStrip).filter (fun p => p ≠ []))
        = [sa ++ '-' :: sb] := by
    rw [hsplit]
    simp [hstrip, hne]
  constructor
  · intro ha hab hb
    have hcond : 1 ≤ (a : Int) ∧ (a : Int) ≤ (f.content.length : Int) ∧
        1 ≤ (b : Int) ∧ (b : Int) ≤ (f.content.length : Int) := by
      refine ⟨?_, ?_, ?_, ?_⟩ <;> omega
    have hgo : splitPartsGo f.content.length [sa ++ '-' :: sb]
        = .ok [(a - 1, b)] := by
      have h1 : (min (a : Int) (b : Int)).toNat - 1 = a - 1 := by omega
      have h2 : (max (a : Int) (b : Int)).toNat = b := by omega
      simp only [splitPartsGo, if_pos hmem, honce, hsa, hsb, if_pos hcond,
        h1, h2, bind, Except.bind, pure, Except.pure]
    have hmain : api_split_pdf [f] (sa ++ '-' :: sb)
        = .ok [(f.content.drop (a - 1)).take (b - (a - 1))] := by
      simp only [api_split_pdf, hstrip, if_neg hne, save_uploads_ok [f]
        (by intro g hg; rcases List.mem_singleton.mp hg with h; subst h; exact hval),
        bind, Except.bind, hext, if_pos rfl, if_true, hparts, hgo, pure,
        Except.pure, List.map_cons, List.map_nil]
    have hba : b - (a - 1) = b - a + 1 := by omega
    rw [hba] at hmain
    refine ⟨hmain, ?_, ?_⟩
    · rw [List.length_take, List.length_drop]
      omega
    · intro i hi
      rw [List.getElem?_take, if_pos hi, List.getElem?_drop]
  · intro hout
    have hcond : ¬(1 ≤ (a : Int) ∧ (a : Int) ≤ (f.content.length : Int) ∧
        1 ≤ (b : Int) ∧ (b : Int) ≤ (f.content.length : Int)) := by
      intro hc; exact hout (by omega)
    have hgo : splitPartsGo f.content.length [sa ++ '-' :: sb]
        = .error (400, rangeOutMsg f.content.length) := by
      simp only [splitPartsGo, if_pos hmem, honce, hsa, hsb, if_neg hcond]
    simp only [api_split_pdf, hstrip, if_neg hne, save_uploads_ok [f]
      (by intro g hg; rcases List.mem_singleton.mp hg with h; subst h; exact hval),
      bind, Except.bind, hext, if_pos rfl, if_true, hparts, hgo]

/-- Witness for C2: splitting a 4-page PDF at range `2-3` yields the
2-page part of source pages 2 and 3, and range `2-9` is rejected. -/
theorem split_pdf_range_witness :
    (api_split_pdf [⟨pystr "a.pdf", 2048, ([10, 11, 12, 13] : List Nat)⟩] (pystr "2-3")
        = .ok [[11, 12]]) ∧
    (api_split_pdf [⟨pystr "a.pdf", 2048, ([10, 11, 12, 13] : List Nat)⟩] (pystr "2-9")
        = .error (400, rangeOutMsg 4)) := by
  constructor
  · have h := (split_pdf_range (⟨pystr "a.pdf", 2048, [10, 11, 12, 13]⟩ : Upload (List Nat))
      (pystr "2") (pystr "3") 2 3 (by decide) (by decide) (by decide) (by decide)
      (by decide) (by decide) (by decide) (by decide)).1
      (by decide) (by decide) (by decide)
    exact h.1.trans rfl
  · have h := (split_pdf_range (⟨pystr "a.pdf", 2048, [10, 11, 12, 13]⟩ : Upload (List Nat))
      (pystr "2") (pystr "9") 2 9 (by decide) (by decide) (by decide) (by decide)
      (by decide) (by decide) (by decide) (by decide)).2
      (by decide)
    exact h

-- -----------------------------------------------------------------------------
-- /api/delete-pages-pdf (src/app.py lines 1212-1271 and parse_pages at 508-527;
-- src/app/app.py lines 590-643)
-- -----------------------------------------------------------------------------

/-- The integers `min a b, ..., max a b` (Python
`range(min(a,b), max(a,b)+1)`). -/
def intRangeIncl (a b : Int) : List Int :=
  (List.range ((max a b + 1 - min a b).toNat)).map (fun i => min a b + i)

/-- One comma-separated piece inside `parse_pages`: `a-b` adds the inclusive
range between the two numbers, a plain number adds itself; a piece that does
not parse aborts with 400. -/
def parsePagePart (part : PyStr) : Except (Nat × PyStr) (List Int) :=
  if '-' ∈ part then
    match pySplitOnce '-' part with
    | (x, some y) =>
      match pyInt? x, pyInt? y with
      | some a, some b => .ok (intRangeIncl a b)
      | _, _ => .error (400, pystr "Invalid page range.")
    | (_, none) => .error (400, pystr "Invalid page range.")
  else
    match pyInt? part with
    | some p => .ok [p]
    | none => .error (400, pystr "Invalid page number.")

/-- `parse_pages` (src/app.py lines 508-527): the set of pages named by the
comma-separated parts (whitespace-stripped, empties skipped); represented by
a list whose membership is the set. -/
def parse_pages (pages_str : PyStr) : Except (Nat × PyStr) (List Int) :=
  if pages_str = [] then .ok []
  else
    let parts := ((pySplit ',' pages_str).map pyStrip).filter (fun p => p ≠ [])
    parts.foldlM (fun acc part => do
      let s ← parsePagePart part
      pure (acc ++ s)) []

/-- The page-keeping loop of `api_delete_pages_pdf`
(`for i, page in enumerate(reader.pages): if (i+1) not in pages_to_remove`),
with `i` the running 0-based index. -/
def keepPages {α : Type} (S : List Int) : List α → Nat → List α
  | [], _ => []
  | p :: rest, i =>
    if ((i : Int) + 1) ∈ S then keepPages S rest (i + 1)
    else p :: keepPages S rest (i + 1)

/-- `api_delete_pages_pdf`: one uploaded PDF and a non-empty `pages` field;
parse the page set and copy every page whose 1-based index is not in it.
(A failing parse propagates as an error response: 400 directly in
`src/app/app.py`, re-wrapped as the handler's 500 in `src/app.py`, where
`parse_pages` aborts inside the `try`; no claim exercises that path and the
theorems below assume a successful parse.) -/
def api_delete_pages_pdf {α : Type} (files : List (Upload (List α)))
    (pages_raw : PyStr) : Except (Nat × PyStr) (List α) :=
  match files with
  | [f] =>
    let ps := pyStrip pages_raw
    if ps = [] then .error (400, pystr "Pages to remove are required.")
    else do
      let _ ← save_uploads [f]
      if ext_of f.filename = pystr ".pdf" then do
        let s ← parse_pages ps
        pure (keepPages s f.content 0)
      else .error (400, pystr "Only PDF files are allowed.")
  | _ => .error (400, pystr "Upload exactly one PDF.")

theorem keepPages_spec {α : Type} (S : List Int) (l : List α) (i : Nat) :
    keepPages S l i = (List.range l.length).filterMap
      (fun j => if ((i + j : Nat) : Int) + 1 ∈ S then none else l[j]?) := by
  induction l generalizing i with
  | nil => rfl
  | cons p rest ih =>
    rw [keepPages]
    by_cases hmem : ((i : Int) + 1) ∈ S
    · rw [if_pos hmem, ih (i + 1)]
      rw [List.length_cons, List.range_succ_eq_map, List.filterMap_cons,
        List.filterMap_map]
      have h0 : (((i + 0 : Nat) : Int) + 1) ∈ S := by simpa using hmem
      rw [if_pos h0]
      apply List.filterMap_congr
      intro j _
      have harith : ((i + 1 + j : Nat) : Int) = ((i + Nat.succ j : Nat) : Int) := by
        push_cast; ring
      simp [Function.comp, harith, List.getElem?_cons_succ]
    · rw [if_neg hmem, ih (i + 1)]
      rw [List.length_cons, List.range_succ_eq_map, List.filterMap_cons,
        List.filterMap_map]
      have h0 : ¬((((i + 0 : Nat) : Int) + 1) ∈ S) := by simpa using hmem
      rw [if_neg h0]
      simp only [List.getElem?_cons_zero]
      congr 1
      apply List.filterMap_congr
      intro j _
      have harith : ((i + 1 + j : Nat) : Int) = ((i + Nat.succ j : Nat) : Int) := by
        push_cast; ring
      simp [Function.comp, harith, List.getElem?_cons_succ]

/-- C3: deleting pages keeps, in original order, exactly the input pages
whose 1-based index is not in the parsed page set: the output is the
in-order sublist of pages at 0-based positions `j` with `j+1` outside the
set. -/
theorem delete_pages_keeps_complement {α : Type} (f : Upload (List α))
    (pages_raw : PyStr) (S : List Int)
    (hval : validUpload f) (hext : ext_of f.filename = pystr ".pdf")
    (hps : parse_pages (pyStrip pages_raw) = .ok S)
    (hne : pyStrip pages_raw ≠ []) :
    api_delete_pages_pdf [f] pages_raw
      = .ok ((List.range f.content.length).filterMap
          (fun j => if ((j : Nat) : Int) + 1 ∈ S then none else f.content[j]?)) := by
  have hmain : api_delete_pages_pdf [f] pages_raw = .ok (keepPages S f.content 0) := by
    simp only [api_delete_pages_pdf, if_neg hne, save_uploads_ok [f]
      (by intro g hg; rcases List.mem_singleton.mp hg with h; subst h; exact hval),
      bind, Except.bind, hext, if_pos rfl, if_true, hps, pure, Except.pure]
  rw [hmain, keepPages_spec]
  simp

/-- Witness for C3 (the concrete scenario of the claim): a 5-page PDF with
`pages=2,4` yields the 3-page PDF of original pages 1, 3, 5. -/
theorem delete_pages_keeps_complement_witness :
    api_delete_pages_pdf [⟨pystr "a.pdf", 2048, ([101, 102, 103, 104, 105] : List Nat)⟩]
      (pystr "2,4") = .ok [101, 103, 105] := by
  have h := delete_pages_keeps_complement
    (⟨pystr "a.pdf", 2048, [101, 102, 103, 104, 105]⟩ : Upload (List Nat))
    (pystr "2,4") [2, 4] (by decide) (by decide) rfl (by decide)
  exact h.trans rfl

-- -----------------------------------------------------------------------------
-- /api/rotate-pdf (src/app.py lines 1273-1328; src/app/app.py lines 645-693)
-- -----------------------------------------------------------------------------

/-- `api_rotate_pdf`, with a page modelled by its `/Rotate` value.  PyPDF2's
`PageObject.rotate(angle)` raises `ValueError` unless `angle % 90 == 0` and
otherwise stores `/Rotate := current + angle` (no reduction mod 360); the
raise is caught by the handler's `except` clause and yields a 500 response.
A PDF with no pages never calls `rotate`, so it cannot raise. -/
def api_rotate_pdf (rotation : Int) (files : List (Upload (List Int))) :
    Except (Nat × PyStr) (List Int) :=
  match files with
  | [f] => do
    let _ ← save_uploads [f]
    if ext_of f.filename = pystr ".pdf" then
      if f.content ≠ [] ∧ rotation % 90 ≠ 0 then
        .error (500, pystr "Rotation failed: Rotation angle must be a multiple of 90")
      else .ok (f.content.map (fun r => r + rotation))
    else .error (400, pystr "Only PDF files are allowed.")
  | _ => .error (400, pystr "Upload exactly one PDF.")

/-- C6 counterexample: rotating a page whose `/Rotate` is 0 by θ = 90 and
then rotating the result by `(-θ) mod 360 = 270` stores `/Rotate = 360`,
which is not the original value 0: PyPDF2 accumulates rotations without
reducing modulo 360. -/
theorem rotate_then_mod360_counterexample :
    api_rotate_pdf 90 [⟨pystr "a.pdf", 2048, [0]⟩] = .ok [90] ∧
    (-(90 : Int)) % 360 = 270 ∧
    api_rotate_pdf ((-(90 : Int)) % 360) [⟨pystr "a.pdf", 2048, [90]⟩] = .ok [360] ∧
    (360 : Int) ≠ 0 := by
  refine ⟨rfl, by decide, rfl, by decide⟩

/-- C6 (amended): for θ a multiple of 90 (otherwise the first request fails
with 500 and produces nothing), rotating a valid PDF by θ and the result by
any θ' ≡ -θ (mod 360) that is itself a multiple of 90 yields pages whose
`/Rotate` values are congruent to the originals modulo 360; taking θ' = -θ
itself restores the original `/Rotate` values exactly. -/
theorem rotate_roundtrip (θ θ' : Int) (f f₂ : Upload (List Int))
    (hval : validUpload f) (hext : ext_of f.filename = pystr ".pdf")
    (hval₂ : validUpload f₂) (hext₂ : ext_of f₂.filename = pystr ".pdf")
    (hθ : θ % 90 = 0) (hθ' : θ' % 90 = 0) (hsum : (θ + θ') % 360 = 0)
    (hf₂ : f₂.content = f.content.map (fun r => r + θ)) :
    api_rotate_pdf θ [f] = .ok (f.content.map (fun r => r + θ)) ∧
    api_rotate_pdf θ' [f₂] = .ok (f.content.map (fun r => r + θ + θ')) ∧
    (∀ r ∈ f.content, (r + θ + θ') % 360 = r % 360) ∧
    (θ' = -θ → api_rotate_pdf θ' [f₂] = .ok f.content) := by
  have hsave : save_uploads [f] = .ok [f] :=
    save_uploads_ok [f] (by intro g hg; rcases List.mem_singleton.mp hg with h; subst h; exact hval)
  have hsave₂ : save_uploads [f₂] = .ok [f₂] :=
    save_uploads_ok [f₂] (by intro g hg; rcases List.mem_singleton.mp hg with h; subst h; exact hval₂)
  have h1 : api_rotate_pdf θ [f] = .ok (f.content.map (fun r => r + θ)) := by
    have hcond : ¬(f.content ≠ [] ∧ θ % 90 ≠ 0) := by
      intro hc; exact hc.2 hθ
    simp only [api_rotate_pdf, hsave, bind, Except.bind, hext, if_pos rfl,
      if_true, if_neg hcond]
  have h2 : api_rotate_pdf θ' [f₂] = .ok (f.content.map (fun r => r + θ + θ')) := by
    have hcond : ¬(f.content.map (fun r => r + θ) ≠ [] ∧ θ' % 90 ≠ 0) := by
      intro hc; exact hc.2 hθ'
    simp only [api_rotate_pdf, hsave₂, bind, Except.bind, hext₂, if_pos rfl,
      if_true, hf₂, if_neg hcond, List.map_map]
    rfl
  refine ⟨h1, h2, ?_, ?_⟩
  · intro r _
    omega
  · intro hinv
    rw [h2]
    have : f.content.map (fun r => r + θ + θ') = f.content.map id := by
      apply List.map_congr_left
      intro r _
      simp only [hinv, id_eq]
      ring
    rw [this, List.map_id]

/-- Witness for the amended C6: a valid 1-page PDF rotated by 90 then by
-90 gets its original `/Rotate` value 15 back, and 90 + 270 ≡ 0 (mod 360)
keeps the value congruent mod 360. -/
theorem rotate_roundtrip_witness :
    api_rotate_pdf 90 [⟨pystr "a.pdf", 2048, [15]⟩] = .ok [105] ∧
    api_rotate_pdf (-90) [⟨pystr "a.pdf", 2048, [105]⟩] = .ok [15] ∧
    (15 + 90 + 270) % 360 = (15 : Int) % 360 := by
  have h := rotate_roundtrip 90 (-90)
    ⟨pystr "a.pdf", 2048, [15]⟩ ⟨pystr "a.pdf", 2048, [105]⟩
    (by decide) (by decide) (by decide) (by decide)
    (by decide) (by decide) (by decide) rfl
  exact ⟨h.1, (h.2.2.2 rfl).trans rfl, by decide⟩

-- -----------------------------------------------------------------------------
-- /api/lock-pdf and /api/unlock-pdf (src/app.py lines 1330-1458;
-- src/app/app.py lines 695-800)
-- -----------------------------------------------------------------------------

/-- A PDF as seen by PyPDF2 for the lock/unlock handlers: its encryption
state (the user password when encrypted; `PdfWriter.encrypt` with
`owner_password=None` makes the owner password equal the user password, so
one field suffices) and its pages. -/
structure Pdf (α : Type) where
  encrypted : Option PyStr
  pages : List α
  deriving DecidableEq

/-- `reader.is_encrypted`. -/
def pdf_is_encrypted {α : Type} (p : Pdf α) : Bool := p.encrypted.isSome

/-- `api_lock_pdf`: a stripped `pin` of exactly 4 digits is required; the
pages are copied into a writer which is encrypted with the pin.  Reading
the pages of an already-encrypted upload raises inside the `try`, giving a
500. -/
def api_lock_pdf {α : Type} (pin_raw : PyStr) (files : List (Upload (Pdf α))) :
    Except (Nat × PyStr) (Pdf α) :=
  let pin := pyStrip pin_raw
  if pin = [] ∨ pin.length ≠ 4 ∨ allDigits pin = false then
    .error (400, pystr "PIN must be exactly 4 digits.")
  else
    match files with
    | [f] => do
      let _ ← save_uploads [f]
      if ext_of f.filename = pystr ".pdf" then
        if pdf_is_encrypted f.content then
          .error (500, pystr "Locking failed: File has not been decrypted")
        else .ok { encrypted := some pin, pages := f.content.pages }
      else .error (400, pystr "Only PDF files are allowed.")
    | _ => .error (400, pystr "Upload exactly one PDF.")

/-- `api_unlock_pdf`: for an encrypted upload, `reader.decrypt(password)`
succeeds exactly when the password matches (user password = owner password
here); on success the pages are copied out unencrypted, on failure the
handler answers 400 "Incorrect password."; an unencrypted upload is copied
through without any password check. -/
def api_unlock_pdf {α : Type} (password_raw : PyStr) (files : List (Upload (Pdf α))) :
    Except (Nat × PyStr) (List α) :=
  match files with
  | [f] =>
    let password := pyStrip password_raw
    if password = [] then .error (400, pystr "Password is required.")
    else do
      let _ ← save_uploads [f]
      if ext_of f.filename = pystr ".pdf" then
        match f.content.encrypted with
        | some pw =>
          if password = pw then .ok f.content.pages
          else .error (400, pystr "Incorrect password.")
        | none => .ok f.content.pages
      else .error (400, pystr "Only PDF files are allowed.")
  | _ => .error (400, pystr "Upload exactly one PDF.")

/-- C4: locking a valid unencrypted PDF with a 4-digit pin succeeds and the
result reports `is_encrypted = True`; unlocking that locked PDF with the
same pin succeeds and returns the original pages, hence the original page
count. -/
theorem lock_unlock_roundtrip {α : Type} (f f₂ : Upload (Pdf α)) (pin : PyStr)
    (hval : validUpload f) (hext : ext_of f.filename = pystr ".pdf")
    (hval₂ : validUpload f₂) (hext₂ : ext_of f₂.filename = pystr ".pdf")
    (hunenc : f.content.encrypted = none)
    (hstrip : pyStrip pin = pin) (hpin4 : pin.length = 4)
    (hdig : allDigits pin = true)
    (hf₂ : f₂.content = { encrypted := some pin, pages := f.content.pages }) :
    api_lock_pdf pin [f] = .ok { encrypted := some pin, pages := f.content.pages } ∧
    pdf_is_encrypted ({ encrypted := some pin, pages := f.content.pages } : Pdf α) = true ∧
    api_unlock_pdf pin [f₂] = .ok f.content.pages ∧
    (api_unlock_pdf pin [f₂] = .ok f.content.pages →
      ∀ out, api_unlock_pdf pin [f₂] = .ok out → out.length = f.content.pages.length) := by
  have hsave : save_uploads [f] = .ok [f] :=
    save_uploads_ok [f] (by intro g hg; rcases List.mem_singleton.mp hg with h; subst h; exact hval)
  have hsave₂ : save_uploads [f₂] = .ok [f₂] :=
    save_uploads_ok [f₂] (by intro g hg; rcases List.mem_singleton.mp hg with h; subst h; exact hval₂)
  have hpinne : pin ≠ [] := by
    intro hnil; rw [hnil] at hpin4; simp at hpin4
  have hpincond : ¬(pin = [] ∨ pin.length ≠ 4 ∨ allDigits pin = false) := by
    push_neg
    exact ⟨hpinne, hpin4, by rw [hdig]; decide⟩
  have hlock : api_lock_pdf pin [f] = .ok { encrypted := some pin, pages := f.content.pages } := by
    simp only [api_lock_pdf, hstrip, if_neg hpincond, hsave, bind, Except.bind,
      hext, if_pos rfl, if_true, pdf_is_encrypted, hunenc, Option.isSome_none,
      Bool.false_eq_true, if_false]
  have hunlock : api_unlock_pdf pin [f₂] = .ok f.content.pages := by
    simp only [api_unlock_pdf, hstrip, if_neg hpinne, hsave₂, bind, Except.bind,
      hext₂, if_pos rfl, if_true, hf₂, if_pos rfl]
  refine ⟨hlock, by simp [pdf_is_encrypted], hunlock, ?_⟩
  intro _ out hout
  rw [hunlock] at hout
  cases hout
  rfl

/-- Witness for C4: lock a 2-page unencrypted PDF with pin 1234, then
unlock with 1234. -/
theorem lock_unlock_roundtrip_witness :
    api_lock_pdf (pystr "1234")
        [⟨pystr "a.pdf", 2048, ({ encrypted := none, pages := [5, 6] } : Pdf Nat)⟩]
      = .ok { encrypted := some (pystr "1234"), pages := [5, 6] } ∧
    api_unlock_pdf (pystr "1234")
        [⟨pystr "a.pdf", 2048,
          ({ encrypted := some (pystr "1234"), pages := [5, 6] } : Pdf Nat)⟩]
      = .ok [5, 6] := by
  have h := lock_unlock_roundtrip
    (⟨pystr "a.pdf", 2048, { encrypted := none, pages := [5, 6] }⟩ : Upload (Pdf Nat))
    (⟨pystr "a.pdf", 2048, { encrypted := some (pystr "1234"), pages := [5, 6] }⟩ :
      Upload (Pdf Nat))
    (pystr "1234") (by decide) (by decide) (by decide) (by decide) rfl
    (by decide) (by decide) (by decide) rfl
  exact ⟨h.1, h.2.2.1⟩

/-- C5: uploading a valid encrypted PDF to unlock with a non-empty password
different from the one that decrypts it yields HTTP 400 with body
"Incorrect password." and no file attachment (`.error`, never `.ok`). -/
theorem unlock_wrong_password {α : Type} (f : Upload (Pdf α)) (password pw : PyStr)
    (hval : validUpload f) (hext : ext_of f.filename = pystr ".pdf")
    (henc : f.content.encrypted = some pw)
    (hstrip : pyStrip password = password) (hne : password ≠ [])
    (hwrong : password ≠ pw) :
    api_unlock_pdf password [f] = .error (400, pystr "Incorrect password.") := by
  have hsave : save_uploads [f] = .ok [f] :=
    save_uploads_ok [f] (by intro g hg; rcases List.mem_singleton.mp hg with h; subst h; exact hval)
  simp only [api_unlock_pdf, hstrip, if_neg hne, hsave, bind, Except.bind,
    hext, if_pos rfl, if_true, henc, if_neg hwrong]

/-- Witness for C5: pin 9999 on a PDF locked with 1234 is rejected. -/
theorem unlock_wrong_password_witness :
    api_unlock_pdf (pystr "9999")
        [⟨pystr "a.pdf", 2048,
          ({ encrypted := some (pystr "1234"), pages := [5, 6] } : Pdf Nat)⟩]
      = .error (400, pystr "Incorrect password.") :=
  unlock_wrong_password
    (⟨pystr "a.pdf", 2048, { encrypted := some (pystr "1234"), pages := [5, 6] }⟩ :
      Upload (Pdf Nat))
    (pystr "9999") (pystr "1234") (by decide) (by decide) rfl (by decide)
    (by decide) (by decide)

-- -----------------------------------------------------------------------------
-- PDFProcessor.is_image_pdf (src/app.py lines 236-272; UltraFastProcessor
-- delegates to it at lines 419-422)
-- -----------------------------------------------------------------------------

/-- `PDFProcessor.is_image_pdf`.  The input is `none` when opening/parsing
the PDF raises (the outer `except` returns True), otherwise the list of
per-page results of `page.extract_text() or ""`, with `none` for a page
whose extraction raises (skipped by the inner `except: pass`).  The code
concatenates the text of the first 3 pages, and classifies as text-based
(False) only when the stripped text reaches `threshold` characters and the
alphabetic fraction `alpha_chars / total_chars` exceeds 0.1 (an exact
rational comparison models the Python float division, and `Char.isAlpha`
the ASCII core of `str.isalpha`). -/
def is_image_pdf (pageTexts : Option (List (Option PyStr))) (threshold : Nat) : Bool :=
  match pageTexts with
  | none => true
  | some pts =>
    let text : PyStr := ((pts.take 3).map (fun o => o.getD [])).flatten
    if threshold ≤ (pyStrip text).length then
      let alpha := (text.filter Char.isAlpha).length
      let total := text.length
      if 0 < total ∧ ((alpha : ℚ) / (total : ℚ) > 1 / 10) then false
      else true
    else true

theorem pyStrip_length_le (s : PyStr) : (pyStrip s).length ≤ s.length := by
  unfold pyStrip
  rw [List.length_reverse]
  calc ((s.dropWhile pyIsSpace).reverse.dropWhile pyIsSpace).length
      ≤ (s.dropWhile pyIsSpace).reverse.length :=
        (List.dropWhile_sublist pyIsSpace).length_le
    _ = (s.dropWhile pyIsSpace).length := List.length_reverse _
    _ ≤ s.length := (List.dropWhile_sublist pyIsSpace).length_le

/-- C7: the classifier returns False (text-native) exactly when the reader
opened, the text of the first 3 pages has stripped length at least 100 and
strictly more than 10% of its characters are alphabetic; in every other
case — including a raising reader — it returns True (scanned). -/
theorem is_image_pdf_iff (pageTexts : Option (List (Option PyStr))) :
    is_image_pdf pageTexts 100 = false ↔
      ∃ pts, pageTexts = some pts ∧
        100 ≤ (pyStrip (((pts.take 3).map (fun o => o.getD [])).flatten)).length ∧
        10 * ((((pts.take 3).map (fun o => o.getD [])).flatten).filter Char.isAlpha).length
          > (((pts.take 3).map (fun o => o.getD [])).flatten).length := by
  cases pageTexts with
  | none => simp [is_image_pdf]
  | some pts =>
    simp only [is_image_pdf, Option.some.injEq]
    constructor
    · intro h
      by_cases hlen :
          100 ≤ (pyStrip (((pts.take 3).map (fun o => o.getD [])).flatten)).length
      · rw [if_pos hlen] at h
        by_cases hq : 0 < (((pts.take 3).map (fun o => o.getD [])).flatten).length ∧
            (((((pts.take 3).map (fun o => o.getD [])).flatten).filter Char.isAlpha).length : ℚ)
              / ((((pts.take 3).map (fun o => o.getD [])).flatten).length : ℚ) > 1 / 10
        · refine ⟨pts, rfl, hlen, ?_⟩
          obtain ⟨hpos, hratio⟩ := hq
          have hposQ : (0 : ℚ) < ((((pts.take 3).map (fun o => o.getD [])).flatten).length : ℚ) := by
            exact_mod_cast hpos
          rw [gt_iff_lt, div_lt_div_iff₀ (by norm_num) hposQ] at hratio
          have : ((((pts.take 3).map (fun o => o.getD [])).flatten).length : ℚ)
              < 10 * (((((pts.take 3).map (fun o => o.getD [])).flatten).filter Char.isAlpha).length : ℚ) := by
            linarith
          exact_mod_cast this
        · rw [if_neg hq] at h
          exact absurd h (by decide)
      · rw [if_neg hlen] at h
        exact absurd h (by decide)
    · rintro ⟨pts', hpts, hlen, hratio⟩
      cases hpts
      rw [if_pos hlen]
      have hpos : 0 < (((pts.take 3).map (fun o => o.getD [])).flatten).length := by
        have := pyStrip_length_le (((pts.take 3).map (fun o => o.getD [])).flatten)
        omega
      have hposQ : (0 : ℚ) < ((((pts.take 3).map (fun o => o.getD [])).flatten).length : ℚ) := by
        exact_mod_cast hpos
      have hratioQ :
          (((((pts.take 3).map (fun o => o.getD [])).flatten).filter Char.isAlpha).length : ℚ)
            / ((((pts.take 3).map (fun o => o.getD [])).flatten).length : ℚ) > 1 / 10 := by
        rw [gt_iff_lt, div_lt_div_iff₀ (by norm_num) hposQ]
        have : ((((pts.take 3).map (fun o => o.getD [])).flatten).length : ℚ)
            < 10 * (((((pts.take 3).map (fun o => o.getD [])).flatten).filter Char.isAlpha).length : ℚ) := by
          exact_mod_cast hratio
        linarith
      rw [if_pos ⟨hpos, hratioQ⟩]

-- -----------------------------------------------------------------------------
-- C10: the minimum-size precondition of save_uploads, uniformly over the
-- PDF tool handlers (src/app.py lines 430-437 and 450-462)
-- -----------------------------------------------------------------------------

/-- The 400 body produced by `validate_file` for an undersized upload. -/
def smallMsg : PyStr := pystr "File too small (min 1 KB)."

theorem save_uploads_small {γ : Type} (pre : List (Upload γ)) (f : Upload γ)
    (post : List (Upload γ)) (hpre : ∀ g ∈ pre, validUpload g)
    (hf : f.size < 1024) :
    save_uploads (pre ++ f :: post) = .error (400, smallMsg) := by
  induction pre with
  | nil =>
    simp [save_uploads, validate_file, hf, bind, Except.bind, smallMsg]
  | cons g rest ih =>
    have hg := hpre g (List.mem_cons_self g rest)
    have hrest := ih (fun x hx => hpre x (List.mem_cons_of_mem g hx))
    simp [save_uploads, validate_file_ok g hg, hg.2.2, hrest, bind, Except.bind]

/-- C10: every modelled upload endpoint rejects a request whose uploaded
file is smaller than 1024 bytes with HTTP 400 "File too small (min 1 KB).",
before doing any conversion work (the handlers produce the error and never
an `.ok` result, whatever the file's content is); for multi-file merge the
first undersized file after any prefix of valid files triggers the same
rejection. -/
theorem min_size_uniform {α : Type} :
    (∀ (pre : List (Upload (List α))) (f : Upload (List α)) post,
      (∀ g ∈ pre, validUpload g) → f.size < 1024 →
      2 ≤ (pre ++ f :: post).length →
      api_merge_pdf (pre ++ f :: post) = .error (400, smallMsg)) ∧
    (∀ (f : Upload (List α)) rs, f.size < 1024 → pyStrip rs ≠ [] →
      api_split_pdf [f] rs = .error (400, smallMsg)) ∧
    (∀ (f : Upload (List α)) ps, f.size < 1024 → pyStrip ps ≠ [] →
      api_delete_pages_pdf [f] ps = .error (400, smallMsg)) ∧
    (∀ (rotation : Int) (f : Upload (List Int)), f.size < 1024 →
      api_rotate_pdf rotation [f] = .error (400, smallMsg)) ∧
    (∀ (pin : PyStr) (f : Upload (Pdf α)),
      pyStrip pin ≠ [] → (pyStrip pin).length = 4 →
      allDigits (pyStrip pin) = true → f.size < 1024 →
      api_lock_pdf pin [f] = .error (400, smallMsg)) ∧
    (∀ (pw : PyStr) (f : Upload (Pdf α)), pyStrip pw ≠ [] → f.size < 1024 →
      api_unlock_pdf pw [f] = .error (400, smallMsg)) := by
  have hsingle : ∀ (γ : Type) (f : Upload γ), f.size < 1024 →
      save_uploads [f] = .error (400, smallMsg) := by
    intro γ f hf
    simpa using save_uploads_small [] f [] (by simp) hf
  refine ⟨?_, ?_, ?_, ?_, ?_, ?_⟩
  · intro pre f post hpre hf hlen
    have : ¬(pre ++ f :: post).length < 2 := Nat.not_lt.mpr hlen
    simp only [api_merge_pdf, if_neg this,
      save_uploads_small pre f post hpre hf, bind, Except.bind]
  · intro f rs hf hrs
    simp only [api_split_pdf, if_neg hrs, hsingle _ f hf, bind, Except.bind]
  · intro f ps hf hps
    simp only [api_delete_pages_pdf, if_neg hps, hsingle _ f hf, bind, Except.bind]
  · intro rotation f hf
    simp only [api_rotate_pdf, hsingle _ f hf, bind, Except.bind]
  · intro pin f hone hfour hdig hf
    have hcond : ¬(pyStrip pin = [] ∨ (pyStrip pin).length ≠ 4 ∨
        allDigits (pyStrip pin) = false) := by
      push_neg
      exact ⟨hone, hfour, by rw [hdig]; decide⟩
    simp only [api_lock_pdf, if_neg hcond, hsingle _ f hf, bind, Except.bind]
  · intro pw f hone hf
    simp only [api_unlock_pdf, if_neg hone, hsingle _ f hf, bind, Except.bind]

/-- Witness for C10: a 512-byte upload is rejected by each endpoint with
the "File too small" 400, here shown for merge (valid first file, tiny
second file) and for split. -/
theorem min_size_uniform_witness :
    api_merge_pdf [⟨pystr "a.pdf", 2048, ([1] : List Nat)⟩, ⟨pystr "b.pdf", 512, [2]⟩]
        = .error (400, smallMsg) ∧
    api_split_pdf [⟨pystr "a.pdf", 512, ([1, 2] : List Nat)⟩] (pystr "1-2")
        = .error (400, smallMsg) := by
  constructor
  · exact (min_size_uniform (α := Nat)).1 [⟨pystr "a.pdf", 2048, [1]⟩]
      ⟨pystr "b.pdf", 512, [2]⟩ [] (by decide) (by decide) (by decide)
  · exact (min_size_uniform (α := Nat)).2.1 ⟨pystr "a.pdf", 512, [1, 2]⟩
      (pystr "1-2") (by decide) (by decide)

-- -----------------------------------------------------------------------------
-- MD5 (hashlib, external): executable implementation of
-- `hashlib.md5(s.encode()).hexdigest()`, used by the conversion cache key.
-- Verified against hashlib on the usual test vectors during development.
-- -----------------------------------------------------------------------------

/-- UTF-8 encoding of one code point (`str.encode()`), as byte values. -/
def utf8Bytes1 (c : Char) : List Nat :=
  let n := c.toNat
  if n < 128 then [n]
  else if n < 2048 then [192 + n / 64, 128 + n % 64]
  else if n < 65536 then [224 + n / 4096, 128 + n / 64 % 64, 128 + n % 64]
  else [240 + n / 262144, 128 + n / 4096 % 64, 128 + n / 64 % 64, 128 + n % 64]

/-- UTF-8 encoding of a string (`str.encode()`). -/
def utf8Bytes (s : PyStr) : List Nat := (s.map utf8Bytes1).flatten

/-- The MD5 sine-derived round constants `K[i] = floor(abs(sin(i+1)) * 2^32)`. -/
def md5K : List Nat := [3614090360, 3905402710, 606105819, 3250441966,
  4118548399, 1200080426, 2821735955, 4249261313, 1770035416, 2336552879,
  4294925233, 2304563134, 1804603682, 4254626195, 2792965006, 1236535329,
  4129170786, 3225465664, 643717713, 3921069994, 3593408605, 38016083,
  3634488961, 3889429448, 568446438, 3275163606, 4107603335, 1163531501,
  2850285829, 4243563512, 1735328473, 2368359562, 4294588738, 2272392833,
  1839030562, 4259657740, 2763975236, 1272893353, 4139469664, 3200236656,
  681279174, 3936430074, 3572445317, 76029189, 3654602809, 3873151461,
  530742520, 3299628645, 4096336452, 1126891415, 2878612391, 4237533241,
  1700485571, 2399980690, 4293915773, 2240044497, 1873313359, 4264355552,
  2734768916, 1309151649, 4149444226, 3174756917, 718787259, 3951481745]

/-- The MD5 per-round left-rotation amounts. -/
def md5S : List Nat := [7, 12, 17, 22, 7, 12, 17, 22, 7, 12, 17, 22, 7, 12,
  17, 22, 5, 9, 14, 20, 5, 9, 14, 20, 5, 9, 14, 20, 5, 9, 14, 20, 4, 11, 16,
  23, 4, 11, 16, 23, 4, 11, 16, 23, 4, 11, 16, 23, 6, 10, 15, 21, 6, 10, 15,
  21, 6, 10, 15, 21, 6, 10, 15, 21]

/-- Addition modulo 2^32. -/
def add32 (a b : Nat) : Nat := (a + b) % 4294967296

/-- Left rotation of a 32-bit value by `n < 32` places: the truncated left
shift and the right shift occupy disjoint bit ranges, so their sum is the
rotated word. -/
def rotl32 (x n : Nat) : Nat := (x * 2 ^ n) % 4294967296 + x / 2 ^ (32 - n)

/-- Bitwise complement of a 32-bit value. -/
def not32 (x : Nat) : Nat := 4294967295 - x

/-- MD5 padding: a 0x80 byte, zeros to 56 mod 64, then the 64-bit
little-endian bit length. -/
def md5Pad (msg : List Nat) : List Nat :=
  let len := msg.length
  let zeros := (56 + 64 - ((len + 1) % 64)) % 64
  msg ++ 128 :: List.replicate zeros 0
    ++ (List.range 8).map (fun i => (len * 8) / 2 ^ (8 * i) % 256)

/-- Little-endian 32-bit word `g` of a 64-byte block. -/
def md5Word (block : List Nat) (g : Nat) : Nat :=
  block.getD (4 * g) 0 + 256 * block.getD (4 * g + 1) 0
    + 65536 * block.getD (4 * g + 2) 0 + 16777216 * block.getD (4 * g + 3) 0

/-- One of the 64 MD5 rounds. -/
def md5Round (block : List Nat) (st : Nat × Nat × Nat × Nat) (i : Nat) :
    Nat × Nat × Nat × Nat :=
  let (a, b, c, d) := st
  let fg : Nat × Nat :=
    if i < 16 then ((b &&& c) ||| (not32 b &&& d), i)
    else if i < 32 then ((d &&& b) ||| (not32 d &&& c), (5 * i + 1) % 16)
    else if i < 48 then (b ^^^ c ^^^ d, (3 * i + 5) % 16)
    else (c ^^^ (b ||| not32 d), (7 * i) % 16)
  let tmp := add32 a (add32 fg.1 (add32 (md5K.getD i 0) (md5Word block fg.2)))
  (d, add32 b (rotl32 tmp (md5S.getD i 0)), b, c)

/-- Process one 64-byte block into the running state. -/
def md5Block (h : Nat × Nat × Nat × Nat) (block : List Nat) :
    Nat × Nat × Nat × Nat :=
  let r := (List.range 64).foldl (md5Round block) h
  (add32 h.1 r.1, add32 h.2.1 r.2.1, add32 h.2.2.1 r.2.2.1, add32 h.2.2.2 r.2.2.2)

/-- Cut a byte list into 64-byte blocks (fuelled structural recursion). -/
def blocksOf : Nat → List Nat → List (List Nat)
  | 0, _ => []
  | _, [] => []
  | fuel + 1, l => l.take 64 :: blocksOf fuel (l.drop 64)

/-- Lowercase hex digit. -/
def hexDigit (n : Nat) : Char := (pystr "0123456789abcdef").getD n 'x'

/-- Two hex digits of a byte. -/
def hexByte (b : Nat) : PyStr := [hexDigit (b / 16), hexDigit (b % 16)]

/-- Eight hex digits of a 32-bit word, little-endian byte order. -/
def hexWordLE (w : Nat) : PyStr :=
  hexByte (w % 256) ++ hexByte (w / 256 % 256) ++ hexByte (w / 65536 % 256)
    ++ hexByte (w / 16777216 % 256)

/-- MD5 hex digest of a byte sequence. -/
def md5hexBytes (msg : List Nat) : PyStr :=
  let padded := md5Pad msg
  let blocks := blocksOf (padded.length + 1) padded
  let h := blocks.foldl md5Block (1732584193, 4023233417, 2562383102, 271733878)
  hexWordLE h.1 ++ hexWordLE h.2.1 ++ hexWordLE h.2.2.1 ++ hexWordLE h.2.2.2

/-- `hashlib.md5(s.encode()).hexdigest()`. -/
def md5hex (s : PyStr) : PyStr := md5hexBytes (utf8Bytes s)

-- -----------------------------------------------------------------------------
-- The conversion cache of PDFProcessor.extract_text_from_pdf
-- (src/app.py lines 85-109; same keying in UltraFastProcessor at 358-364)
-- -----------------------------------------------------------------------------

/-- `CACHE_TTL_SECONDS = 3600` (src/app.py line 61). -/
def CACHE_TTL_SECONDS : Nat := 3600

/-- Python `str(bool)`. -/
def pyBoolStr (b : Bool) : PyStr := if b then pystr "True" else pystr "False"

/-- Python `sep.join(strings)` for a one-character separator. -/
def joinBy (sep : Char) : List PyStr → PyStr
  | [] => []
  | [l] => l
  | l :: rest => l ++ sep :: joinBy sep rest

/-- The cache key built at src/app.py lines 92-93:
`hashlib.md5(pdf_path.encode()).hexdigest()` followed by
`f"_{use_ocr}_{'_'.join(languages)}"`.  Note that the MD5 is taken of the
**temp path string**, not of the file's bytes. -/
def conversionCacheKey (pdf_path : PyStr) (use_ocr : Bool)
    (languages : List PyStr) : PyStr :=
  md5hex pdf_path ++ '_' :: (pyBoolStr use_ocr ++ '_' :: joinBy '_' languages)

/-- Dictionary lookup in `conversion_cache`, modelled over an association
list: the stored (timestamp, text) pair for the key, if present. -/
def cacheLookup (cache : List (PyStr × Nat × PyStr)) (key : PyStr) :
    Option (Nat × PyStr) :=
  (cache.find? (fun e => e.1 == key)).map (fun e => e.2)

/-- The caching skeleton of `PDFProcessor.extract_text_from_pdf`: consult
the cache under the path/parameter key and return the stored text when its
age is below the TTL; otherwise run the extraction pipeline (whose outcome
is the `computed` argument, covering steps 1-2 of the function) and store
it under the key with the current time.  Returns the produced text and the
updated cache. -/
def extract_text_from_pdf (cache : List (PyStr × Nat × PyStr)) (now : Nat)
    (pdf_path : PyStr) (use_ocr : Bool) (languages : List PyStr)
    (computed : PyStr) : PyStr × List (PyStr × Nat × PyStr) :=
  let key := conversionCacheKey pdf_path use_ocr languages
  match cacheLookup cache key with
  | some (t, text) =>
    if now - t < CACHE_TTL_SECONDS then (text, cache)
    else (computed, (key, now, computed) :: cache.filter (fun e => !(e.1 == key)))
  | none => (computed, (key, now, computed) :: cache.filter (fun e => !(e.1 == key)))

/-- C9 counterexample: the cache key is **not** a content hash.  Two
uploads of byte-identical PDFs are saved under distinct
`generate_unique_filename` temp paths, and the key depends only on that
path (and the parameters): the keys differ, and a cache primed by the
first upload's extraction is missed by the second, which re-extracts
(returns `computed`, not the cached text) even though content and
parameters are identical. -/
theorem conversion_cache_key_counterexample :
    conversionCacheKey (pystr "u1_a.pdf") false [pystr "eng"]
        ≠ conversionCacheKey (pystr "u2_a.pdf") false [pystr "eng"] ∧
    (extract_text_from_pdf
        [(conversionCacheKey (pystr "u1_a.pdf") false [pystr "eng"], 0, pystr "CACHED")]
        10 (pystr "u2_a.pdf") false [pystr "eng"] (pystr "FRESH")).1
      = pystr "FRESH" := by
  constructor
  · decide
  · rfl

/-- C9 (amended): the cache maps the MD5 of the uploaded file's temp
**path** combined with `(use_ocr, languages)` to a (timestamp, text) pair,
and a cached text is returned in place of re-extraction exactly while the
entry's age `now - t` is below `CACHE_TTL_SECONDS = 3600`; an expired entry
is re-extracted. -/
theorem conversion_cache_ttl (pdf_path : PyStr) (use_ocr : Bool)
    (languages : List PyStr) (t now : Nat) (txt computed : PyStr) :
    (extract_text_from_pdf [(conversionCacheKey pdf_path use_ocr languages, t, txt)]
        now pdf_path use_ocr languages computed).1
      = if now - t < CACHE_TTL_SECONDS then txt else computed := by
  have hfind : List.find?
      (fun e => e.1 == conversionCacheKey pdf_path use_ocr languages)
      [(conversionCacheKey pdf_path use_ocr languages, t, txt)]
      = some (conversionCacheKey pdf_path use_ocr languages, t, txt) := by
    simp [List.find?]
  simp only [extract_text_from_pdf, cacheLookup, hfind, Option.map_some']
  split
  · rfl
  · rfl

-- -----------------------------------------------------------------------------
-- C8: temp-file lifecycle of the request handlers with early error returns
-- (src/app.py api_pdf_to_word lines 653-740, in particular 674-692, and
-- api_extract_text lines 906-984, in particular 928-949)
-- -----------------------------------------------------------------------------

/-- Observable outcome of one request for the temp-file lifecycle: the HTTP
status, the response body (error message; empty for an attachment), and
whether the uploaded temp file is still on disk after the request (before
any later `cleanup_temp` age sweep). -/
structure Trace where
  status : Nat
  body : PyStr
  tempLeft : Bool
  deriving DecidableEq

/-- File lifecycle of `api_pdf_to_word`.  External outcomes are arguments:
`isImage` the result of `PDFProcessor.is_image_pdf`, `ocrEnabled` the
`OCR_ENABLED` flag, `text` the result of `fast_extract_text`, `docRaises`
whether building/saving the Word document raises.  The two early `return`s
inside the `try` (OCR needed but unavailable; no extractable text) respond
400 without `safe_remove(pdf_path)` and without registering the
`after_this_request` cleanup, so the temp file stays (`tempLeft = true`);
the `except` path and the success path do remove it. -/
def api_pdf_to_word_trace {γ : Type} (files : List (Upload γ))
    (force_ocr isImage ocrEnabled : Bool) (text : PyStr) (docRaises : Bool) :
    Trace :=
  match files with
  | [f] =>
    match save_uploads [f] with
    | .error e => ⟨e.1, e.2, false⟩
    | .ok _ =>
      if ext_of f.filename = pystr ".pdf" then
        if (force_ocr || isImage) && !ocrEnabled then
          ⟨400, pystr "OCR is required for this PDF but OCR is not available. Please install OCR dependencies.", true⟩
        else if (pyStrip text).length < 10 then
          ⟨400, pystr "Could not extract any text from the PDF.", true⟩
        else if docRaises then ⟨500, pystr "Conversion failed.", false⟩
        else ⟨200, [], false⟩
      else ⟨400, pystr "Only PDF files are allowed.", false⟩
  | _ => ⟨400, pystr "Upload exactly one PDF.", false⟩

/-- File lifecycle of `api_extract_text`: same shape; `mode` is the
`use_ocr` form field (`force` / `never` / anything else = auto). -/
def api_extract_text_trace {γ : Type} (files : List (Upload γ))
    (mode : PyStr) (isImage ocrEnabled : Bool) (text : PyStr) : Trace :=
  match files with
  | [f] =>
    match save_uploads [f] with
    | .error e => ⟨e.1, e.2, false⟩
    | .ok _ =>
      if ext_of f.filename = pystr ".pdf" then
        let force_ocr := if mode = pystr "force" then true
          else if mode = pystr "never" then false else isImage
        if force_ocr && !ocrEnabled then
          ⟨400, pystr "OCR is required but not available.", true⟩
        else if (pyStrip text).length < 10 then
          ⟨400, pystr "Could not extract any text from the PDF.", true⟩
        else ⟨200, [], false⟩
      else ⟨400, pystr "Only PDF files are allowed.", false⟩
  | _ => ⟨400, pystr "Upload exactly one PDF.", false⟩

/-- C8 counterexample: a valid PDF upload to `api_pdf_to_word` with
`force_ocr` set while OCR is unavailable gets an error response (HTTP 400)
whose path leaves the uploaded temp file on disk — a failure path without
cleanup.  Likewise for `api_extract_text` and for its "no text" branch. -/
theorem temp_cleanup_counterexample :
    (api_pdf_to_word_trace [⟨pystr "a.pdf", 2048, ()⟩] true true false
        (pystr "plenty of extracted text") false).status = 400 ∧
    (api_pdf_to_word_trace [⟨pystr "a.pdf", 2048, ()⟩] true true false
        (pystr "plenty of extracted text") false).tempLeft = true ∧
    (api_extract_text_trace [⟨pystr "a.pdf", 2048, ()⟩] (pystr "force") false false
        (pystr "plenty of extracted text")).status = 400 ∧
    (api_extract_text_trace [⟨pystr "a.pdf", 2048, ()⟩] (pystr "force") false false
        (pystr "plenty of extracted text")).tempLeft = true := by
  refine ⟨rfl, rfl, rfl, rfl⟩

/-- C8 (amended): for a valid single-PDF request, the uploaded temp file is
removed on the success path, on the exception path, and on the
extension-validation failure, but it is left on disk exactly on the two
early-return 400 paths of `api_pdf_to_word` (OCR required but unavailable;
fewer than 10 characters of extracted text) and the corresponding paths of
`api_extract_text`; those files are only collected by the later
`cleanup_temp` age sweep. -/
theorem temp_cleanup_characterization {γ : Type} (f : Upload γ)
    (force_ocr isImage ocrEnabled : Bool) (text : PyStr) (docRaises : Bool)
    (mode : PyStr) (isImage₂ ocrEnabled₂ : Bool) (text₂ : PyStr)
    (hval : validUpload f) (hext : ext_of f.filename = pystr ".pdf") :
    ((api_pdf_to_word_trace [f] force_ocr isImage ocrEnabled text docRaises).tempLeft
        = true ↔
      ((force_ocr || isImage) && !ocrEnabled) = true ∨
        (((force_ocr || isImage) && !ocrEnabled) = false ∧
          (pyStrip text).length < 10)) ∧
    ((api_extract_text_trace [f] mode isImage₂ ocrEnabled₂ text₂).tempLeft = true ↔
      (let fo := if mode = pystr "force" then true
        else if mode = pystr "never" then false else isImage₂
       (fo && !ocrEnabled₂) = true ∨
        ((fo && !ocrEnabled₂) = false ∧ (pyStrip text₂).length < 10))) := by
  have hsave : save_uploads [f] = .ok [f] :=
    save_uploads_ok [f] (by intro g hg; rcases List.mem_singleton.mp hg with h; subst h; exact hval)
  constructor
  · simp only [api_pdf_to_word_trace, hsave, hext, if_pos rfl, if_true]
    split_ifs with h1 h2 h3 <;> simp_all
  · simp only [api_extract_text_trace, hsave, hext, if_pos rfl, if_true]
    split_ifs with h1 h2 h3 <;> simp_all

/-- Witness for the amended C8: concrete leak on the OCR-unavailable path,
and concrete cleanup on the success path. -/
theorem temp_cleanup_characterization_witness :
    (api_pdf_to_word_trace [⟨pystr "a.pdf", 2048, ()⟩] true false false
        (pystr "plenty of extracted text") false).tempLeft = true ∧
    (api_extract_text_trace [⟨pystr "a.pdf", 2048, ()⟩] (pystr "auto") false false
        (pystr "plenty of extracted text")).tempLeft = false := by
  have h := temp_cleanup_characterization (⟨pystr "a.pdf", 2048, ()⟩ : Upload Unit)
    true false false (pystr "plenty of extracted text") false
    (pystr "auto") false false (pystr "plenty of extracted text")
    (by decide) (by decide)
  constructor
  · exact h.1.mpr (Or.inl (by decide))
  · by_contra hcontra
    have := h.2.mp (by revert hcontra; decide)
    revert this; decide

end IMasterPDF
